import Mathlib

/-!
Shallow embedding of the GGDB paging core (src/src/paging/): the fixed-size
`Page` with its header overlaid on the raw byte buffer, the `ClockReplacer`
second-chance eviction policy, and the `BufferPoolManager` frame table.

The 8192-byte buffer is modelled as a function `Nat → Nat` whose values are
bytes; the Rust code overlays a `#[repr(C)]` `PageHeader` on the first 32
bytes, which we model as little-endian multi-byte reads/writes at the fixed
field offsets (lsn 0..8, page_id 8..16, checksum 16..20,
free_space_pointer 20..24, item_count 24..28, page_type 28..30,
padding 30..32). Machine integers are `Nat` with explicit `% 2^w` where the
code can wrap; the runtime pin count is an `Int` so that the "never
negative" property is meaningful (`u32` underflow corresponds to the model
going negative).
-/

def PAGE_SIZE : Nat := 8192

/-- `size_of::<PageHeader>()` for the repr(C) layout u64,u64,u32,u32,u32,u16,u16. -/
def HEADER_SIZE : Nat := 32

/-- `2^32`, the modulus of Rust `u32` arithmetic. -/
def U32 : Nat := 4294967296

/-- Store one byte (Rust `u8`) at index `i`. -/
def setByte (d : Nat → Nat) (i b : Nat) : Nat → Nat :=
  fun j => if j = i then b % 256 else d j

/-- Little-endian store of the low `w` bytes of `v` at offset `off`. -/
def writeLE : (Nat → Nat) → Nat → Nat → Nat → (Nat → Nat)
  | d, _, 0, _ => d
  | d, off, w + 1, v => writeLE (setByte d off v) (off + 1) w (v / 256)

/-- Little-endian load of `w` bytes at offset `off`. -/
def readLE : (Nat → Nat) → Nat → Nat → Nat
  | _, _, 0 => 0
  | d, off, w + 1 => d off % 256 + 256 * readLE d (off + 1) w

inductive PageType where
  | NodeStore
  | Relationship
  | PropertyStore
deriving DecidableEq

/-- The `u16` discriminant of the `#[repr(u16)]` enum. -/
def PageType.tag : PageType → Nat
  | .NodeStore => 0
  | .Relationship => 1
  | .PropertyStore => 2

/-- The repr(C) `PageHeader`; `page_type` is kept as its raw u16 tag. -/
structure PageHeader where
  lsn : Nat
  page_id : Nat
  checksum : Nat
  free_space_pointer : Nat
  item_count : Nat
  page_type : Nat
  padding : Nat

/-- `PageHeader::new(page_id, page_type)`. -/
def PageHeader.new (page_id : Nat) (page_type : PageType) : PageHeader :=
  { lsn := 0, page_id := page_id, checksum := 0,
    free_space_pointer := HEADER_SIZE, item_count := 0,
    page_type := page_type.tag, padding := 0 }

/-- `Page::write_header`: encode every header field into the buffer. -/
def writeHeader (d : Nat → Nat) (h : PageHeader) : Nat → Nat :=
  writeLE (writeLE (writeLE (writeLE (writeLE (writeLE (writeLE d
    0 8 h.lsn) 8 8 h.page_id) 16 4 h.checksum) 20 4 h.free_space_pointer)
    24 4 h.item_count) 28 2 h.page_type) 30 2 h.padding

/-- The Rust `Page`: raw buffer plus runtime-only metadata. -/
structure Page where
  data : Nat → Nat
  page_id : Option Nat
  is_dirty : Bool
  pin_count : Int
  ref_bit : Bool

def Page.get_lsn (p : Page) : Nat := readLE p.data 0 8

def Page.get_page_id (p : Page) : Nat := readLE p.data 8 8

def Page.get_checksum (p : Page) : Nat := readLE p.data 16 4

def Page.get_free_space_pointer (p : Page) : Nat := readLE p.data 20 4

def Page.get_item_count (p : Page) : Nat := readLE p.data 24 4

def Page.get_page_type (p : Page) : Nat := readLE p.data 28 2

def Page.get_data (p : Page) : Nat → Nat := p.data

/-- `Page::new(page_id, page_type)`. -/
def Page.new (page_id : Nat) (page_type : PageType) : Page :=
  { data := writeHeader (fun _ => 0) (PageHeader.new page_id page_type),
    page_id := some page_id, is_dirty := false, pin_count := 0,
    ref_bit := true }

/-- `Page::from_bytes(data)`: keep the buffer, derive the runtime id from the
embedded header. -/
def Page.from_bytes (data : Nat → Nat) : Page :=
  { data := data, page_id := some (readLE data 8 8), is_dirty := false,
    pin_count := 0, ref_bit := false }

/-- `Page::get_free_space`: `PAGE_SIZE - free_space_pointer` (as in the
source this is only meaningful while the pointer is within the page;
`Nat` subtraction agrees with the Rust `usize` subtraction there). -/
def Page.get_free_space (p : Page) : Nat :=
  PAGE_SIZE - p.get_free_space_pointer

def Page.has_room (p : Page) (bytes_needed : Nat) : Bool :=
  decide (bytes_needed ≤ p.get_free_space)

def Page.set_page_id (p : Page) (page_id : Nat) : Page :=
  { p with page_id := some page_id, data := writeLE p.data 8 8 page_id }

def Page.set_lsn (p : Page) (lsn : Nat) : Page :=
  { p with data := writeLE p.data 0 8 lsn }

def Page.set_free_space_pointer (p : Page) (pointer : Nat) : Page :=
  { p with data := writeLE p.data 20 4 pointer }

def Page.set_pin_count (p : Page) (count : Int) : Page :=
  { p with pin_count := count }

def Page.set_dirty (p : Page) (dirty : Bool) : Page :=
  { p with is_dirty := dirty }

def Page.pin (p : Page) : Page :=
  { p with pin_count := p.pin_count + 1 }

/-- `Page::unpin`: the source asserts `pin_count > 0` (a fatal invariant
violation otherwise), modelled as `none`. -/
def Page.unpin (p : Page) : Option (Page × Bool) :=
  if p.pin_count > 0 then some ({ p with pin_count := p.pin_count - 1 }, true)
  else none

/-- `Page::allocate(size)`: bump allocation; `size as u32` and the u32
addition carry their `% 2^32` truncations. -/
def Page.allocate (p : Page) (size : Nat) : Option Nat × Page :=
  if p.has_room size then
    let offset := p.get_free_space_pointer
    (some offset, p.set_free_space_pointer ((offset + size % U32) % U32))
  else (none, p)

/-- `Page::reset`: re-read id and type tag from the embedded header, zero the
buffer, write a fresh header with them (the same fields `PageHeader::new`
would produce), clear the runtime state. -/
def Page.reset (p : Page) : Page :=
  let pid := p.get_page_id
  let ptag := p.get_page_type
  { data := writeHeader (fun _ => 0)
      { lsn := 0, page_id := pid, checksum := 0,
        free_space_pointer := HEADER_SIZE, item_count := 0,
        page_type := ptag, padding := 0 },
    page_id := some pid, is_dirty := false, pin_count := 0, ref_bit := false }

/-- `Page::write_at(offset, data)`: bounds-checked raw write. -/
def Page.write_at (p : Page) (offset : Nat) (bytes : List Nat) : Bool × Page :=
  let stop := offset + bytes.length
  if PAGE_SIZE < stop then (false, p)
  else
    (true,
     { p with
       data := fun j =>
         if offset ≤ j ∧ j < stop then bytes.getD (j - offset) 0 % 256
         else p.data j,
       is_dirty := true })

/-- `Page::read_at(offset, length)`: bounds-checked raw read. -/
def Page.read_at (p : Page) (offset : Nat) (length : Nat) : Option (List Nat) :=
  if PAGE_SIZE < offset + length then none
  else some ((List.range length).map (fun k => p.data (offset + k)))

/-- `Page::default()` is `Page::new(0, NodeStore)`. -/
def Page.default : Page := Page.new 0 PageType.NodeStore

/-! ## ClockReplacer (src/src/paging/replacement.rs) -/

abbrev PageId := Nat
abbrev FrameId := Nat

/-- The body of `ClockReplacer::victim`'s `loop`, with explicit fuel (the
source loop terminates; every claim is settled either for all fuel values or
on concrete runs where the provided fuel is ample). `start` is
`start_hand`; the result is (victim, frames, hand). -/
def victimAux : Nat → List Page → Nat → Nat → Nat →
    Option FrameId × List Page × Nat
  | 0, frames, hand, _, _ => (none, frames, hand)
  | fuel + 1, frames, hand, start, size =>
    let frame := frames.getD hand Page.default
    if frame.pin_count > 0 then
      let hand1 := (hand + 1) % size
      if hand1 = start then (none, frames, hand1)
      else victimAux fuel frames hand1 start size
    else if frame.ref_bit then
      victimAux fuel (frames.set hand ({ frame with ref_bit := false }))
        ((hand + 1) % size) start size
    else
      (some hand, frames, (hand + 1) % size)

structure ClockReplacer where
  hand : Nat
  size : Nat

def ClockReplacer.new (size : Nat) : ClockReplacer :=
  { hand := 0, size := size }

/-- `ClockReplacer::victim`. The sweep visits each frame at most twice
before the loop exits, so `2 * size + 2` fuel is ample. -/
def ClockReplacer.victim (r : ClockReplacer) (frames : List Page) :
    Option FrameId × List Page × ClockReplacer :=
  let out := victimAux (2 * r.size + 2) frames r.hand r.hand r.size
  (out.1, out.2.1, { r with hand := out.2.2 })

/-- The clock scenario fixed by the spec: three resident, unpinned frames
with reference bits [true, true, false] (a default page has pin count 0
and reference bit true). -/
def clockScenarioFrames : List Page :=
  [Page.default, Page.default, { Page.default with ref_bit := false }]

/-! ## BufferPoolManager (src/src/paging/buffer_pool_manager.rs)

The `HashMap<PageId, FrameId>` is modelled as an association list with
insert-replaces semantics; the `VecDeque` free list as a list popped at the
front. A returned `PageFrameRef` guard is modelled as the `FrameId` it
binds (the guard stores exactly the page id and frame index). -/

def mapLookup (m : List (PageId × FrameId)) (k : PageId) : Option FrameId :=
  match m.find? (fun e => e.1 == k) with
  | some e => some e.2
  | none => none

def mapRemove (m : List (PageId × FrameId)) (k : PageId) :
    List (PageId × FrameId) :=
  m.filter (fun e => e.1 != k)

def mapInsert (m : List (PageId × FrameId)) (k : PageId) (v : FrameId) :
    List (PageId × FrameId) :=
  (k, v) :: mapRemove m k

structure BufferPoolState where
  frames : List Page
  page_mapping : List (PageId × FrameId)
  free_list : List FrameId
  replacer : ClockReplacer

/-- `BufferPoolManager::new(pool_size)`. -/
def BufferPoolManager.new (pool_size : Nat) : BufferPoolState :=
  { frames := List.replicate pool_size Page.default,
    page_mapping := [],
    free_list := List.range pool_size,
    replacer := ClockReplacer.new pool_size }

/-- `BufferPoolManager::find_free_frame`: free list first, else the clock
sweep (which mutates reference bits and the hand even when it fails). -/
def find_free_frame (s : BufferPoolState) : Option FrameId × BufferPoolState :=
  match s.free_list with
  | fid :: rest => (some fid, { s with free_list := rest })
  | [] =>
    let out := s.replacer.victim s.frames
    (out.1, { s with frames := out.2.1, replacer := out.2.2 })

/-- `BufferPoolManager::fetch_page`: hit path pins and sets the reference
bit; miss path selects a frame, removes the old resident's mapping entry
(the flush itself is a commented-out stub in the source), sets the metadata
and inserts the new mapping. -/
def fetch_page (s : BufferPoolState) (page_id : PageId) :
    BufferPoolState × Option FrameId :=
  match mapLookup s.page_mapping page_id with
  | some frame_id =>
    let frame := s.frames.getD frame_id Page.default
    let hit := { frame with pin_count := frame.pin_count + 1, ref_bit := true }
    ({ s with frames := s.frames.set frame_id hit }, some frame_id)
  | none =>
    match find_free_frame s with
    | (none, s1) => (s1, none)
    | (some frame_id, s1) =>
      let mapping2 :=
        match (s1.frames.getD frame_id Page.default).page_id with
        | some old_pid => mapRemove s1.page_mapping old_pid
        | none => s1.page_mapping
      let s2 := { s1 with page_mapping := mapping2 }
      let frame2 := s2.frames.getD frame_id Page.default
      let loaded :=
        { frame2 with
          page_id := some page_id
          pin_count := 1
          is_dirty := false }
      let s3 := { s2 with frames := s2.frames.set frame_id loaded }
      ({ s3 with page_mapping := mapInsert s3.page_mapping page_id frame_id },
       some frame_id)

/-- `BufferPoolManager::unpin_page(page_id, is_dirty)`. -/
def unpin_page (s : BufferPoolState) (page_id : PageId) (is_dirty : Bool) :
    BufferPoolState :=
  match mapLookup s.page_mapping page_id with
  | none => s
  | some frame_id =>
    let frame := s.frames.getD frame_id Page.default
    let frame1 :=
      if frame.pin_count > 0 then { frame with pin_count := frame.pin_count - 1 }
      else frame
    let frame2 := if is_dirty then { frame1 with is_dirty := true } else frame1
    { s with frames := s.frames.set frame_id frame2 }

/-- A client-visible call into the manager, for stating properties over
every sequence of `fetch_page`/`unpin_page` calls. -/
inductive PoolOp where
  | fetch (page_id : PageId)
  | unpin (page_id : PageId) (is_dirty : Bool)

def runOp (s : BufferPoolState) : PoolOp → BufferPoolState
  | .fetch pid => (fetch_page s pid).1
  | .unpin pid d => unpin_page s pid d

def runOps (s : BufferPoolState) : List PoolOp → BufferPoolState
  | [] => s
  | op :: rest => runOps (runOp s op) rest

/-- The header invariant from the spec:
`header_size ≤ free_space_pointer ≤ PAGE_SIZE`. -/
def headerInv (p : Page) : Prop :=
  HEADER_SIZE ≤ p.get_free_space_pointer ∧ p.get_free_space_pointer ≤ PAGE_SIZE

instance (p : Page) : Decidable (headerInv p) := by
  unfold headerInv; infer_instance

/-- "No frame's pin count is ever negative", as a state predicate. -/
def pinsNonneg (s : BufferPoolState) : Prop :=
  ∀ f, 0 ≤ (s.frames.getD f Page.default).pin_count

/-! ## Byte-level helper lemmas -/

theorem setByte_ne (d : Nat → Nat) (i b j : Nat) (h : j ≠ i) :
    setByte d i b j = d j := by
  simp [setByte, h]

theorem writeLE_outside (w : Nat) (d : Nat → Nat) (off v j : Nat)
    (h : j < off ∨ off + w ≤ j) : writeLE d off w v j = d j := by
  induction w generalizing d off v with
  | zero => rfl
  | succ w ih =>
    simp only [writeLE]
    rw [ih (setByte d off v) (off + 1) (v / 256) (by omega)]
    exact setByte_ne d off v j (by omega)

theorem readLE_congrOn (w : Nat) (d d2 : Nat → Nat) (off : Nat)
    (h : ∀ j, off ≤ j → j < off + w → d j = d2 j) :
    readLE d off w = readLE d2 off w := by
  induction w generalizing off with
  | zero => rfl
  | succ w ih =>
    simp only [readLE]
    rw [h off (Nat.le_refl off) (by omega),
      ih (off + 1) (fun j h1 h2 => h j (by omega) (by omega))]

theorem readLE_writeLE_same (w : Nat) (d : Nat → Nat) (off v : Nat) :
    readLE (writeLE d off w v) off w = v % 256 ^ w := by
  induction w generalizing d off v with
  | zero => simp [readLE, Nat.mod_one]
  | succ w ih =>
    simp only [writeLE, readLE]
    rw [writeLE_outside w (setByte d off v) (off + 1) (v / 256) off
      (Or.inl (by omega))]
    rw [ih]
    have h1 : setByte d off v off = v % 256 := by simp [setByte]
    have hpow : (256 : Nat) ^ (w + 1) = 256 * 256 ^ w := by
      rw [Nat.pow_succ, Nat.mul_comm]
    rw [h1, Nat.mod_mod_of_dvd v (dvd_refl 256), hpow, Nat.mod_mul]

theorem readLE_writeLE_disjoint (w w2 : Nat) (d : Nat → Nat) (off off2 v : Nat)
    (h : off2 + w2 ≤ off ∨ off + w ≤ off2) :
    readLE (writeLE d off w v) off2 w2 = readLE d off2 w2 :=
  readLE_congrOn w2 _ d off2
    (fun j h1 h2 => writeLE_outside w d off v j (by omega))

/-! ## List helper lemmas -/

theorem list_getD_set {α : Type} (l : List α) (i j : Nat) (a d : α) :
    (l.set i a).getD j d =
      if j = i ∧ i < l.length then a else l.getD j d := by
  induction l generalizing i j with
  | nil => simp [List.set]
  | cons x xs ih =>
    cases i with
    | zero =>
      cases j with
      | zero => simp
      | succ j => simp
    | succ i =>
      cases j with
      | zero => simp
      | succ j =>
        simp only [List.set, List.getD_cons_succ, ih, List.length_cons]
        by_cases h1 : j = i ∧ i < xs.length
        · rw [if_pos h1, if_pos (by omega)]
        · rw [if_neg h1, if_neg (by omega)]

theorem list_getD_replicate {α : Type} (n j : Nat) (a : α) :
    (List.replicate n a).getD j a = a := by
  induction n generalizing j with
  | zero => simp
  | succ n ih =>
    cases j with
    | zero => simp [List.replicate]
    | succ j => simp [List.replicate, ih]

/-! ## Header field lemmas -/

theorem u32_eq_pow : U32 = 256 ^ 4 := by norm_num [U32]

theorem fsp_writeHeader (d : Nat → Nat) (h : PageHeader) :
    readLE (writeHeader d h) 20 4 = h.free_space_pointer % 256 ^ 4 := by
  unfold writeHeader
  rw [readLE_writeLE_disjoint 2 4 _ 30 20 _ (Or.inl (by norm_num))]
  rw [readLE_writeLE_disjoint 2 4 _ 28 20 _ (Or.inl (by norm_num))]
  rw [readLE_writeLE_disjoint 4 4 _ 24 20 _ (Or.inl (by norm_num))]
  rw [readLE_writeLE_same]

theorem get_fsp_new (id : Nat) (t : PageType) :
    (Page.new id t).get_free_space_pointer = HEADER_SIZE := by
  show readLE (writeHeader _ _) 20 4 = HEADER_SIZE
  rw [fsp_writeHeader]
  rfl

theorem get_fsp_set_fsp (p : Page) (v : Nat) :
    (p.set_free_space_pointer v).get_free_space_pointer = v % 256 ^ 4 := by
  show readLE (writeLE p.data 20 4 v) 20 4 = v % 256 ^ 4
  exact readLE_writeLE_same 4 p.data 20 v

theorem get_fsp_set_lsn (p : Page) (v : Nat) :
    (p.set_lsn v).get_free_space_pointer = p.get_free_space_pointer := by
  show readLE (writeLE p.data 0 8 v) 20 4 = readLE p.data 20 4
  exact readLE_writeLE_disjoint 8 4 p.data 0 20 v (Or.inr (by norm_num))

theorem get_fsp_set_page_id (p : Page) (v : Nat) :
    (p.set_page_id v).get_free_space_pointer = p.get_free_space_pointer := by
  show readLE (writeLE p.data 8 8 v) 20 4 = readLE p.data 20 4
  exact readLE_writeLE_disjoint 8 4 p.data 8 20 v (Or.inr (by norm_num))

/-! ## Allocation lemmas -/

theorem allocate_fail (p : Page) (size : Nat)
    (h : p.get_free_space < size) : p.allocate size = (none, p) := by
  simp [Page.allocate, Page.has_room, show ¬ size ≤ p.get_free_space by omega]

theorem allocate_success (p : Page) (size : Nat)
    (h : size ≤ p.get_free_space) :
    p.allocate size =
      (some p.get_free_space_pointer,
       p.set_free_space_pointer
         ((p.get_free_space_pointer + size % U32) % U32)) := by
  simp [Page.allocate, Page.has_room, h]

theorem allocate_success_fsp (p : Page) (size : Nat)
    (h : size ≤ p.get_free_space)
    (hp : p.get_free_space_pointer ≤ PAGE_SIZE) (hs : size ≤ PAGE_SIZE) :
    (p.allocate size).2.get_free_space_pointer =
      p.get_free_space_pointer + size := by
  rw [allocate_success p size h, get_fsp_set_fsp, ← u32_eq_pow]
  have h1 : size % U32 = size := Nat.mod_eq_of_lt (by unfold U32 PAGE_SIZE at *; omega)
  rw [h1]
  have h2 : p.get_free_space_pointer + size < U32 := by
    unfold U32 PAGE_SIZE at *; omega
  rw [Nat.mod_eq_of_lt h2, Nat.mod_eq_of_lt h2]

theorem get_fsp_reset (p : Page) :
    (p.reset).get_free_space_pointer = HEADER_SIZE := by
  show readLE (writeHeader (fun _ => 0) _) 20 4 = HEADER_SIZE
  rw [fsp_writeHeader]
  rfl

theorem get_lsn_set_fsp (p : Page) (v : Nat) :
    (p.set_free_space_pointer v).get_lsn = p.get_lsn := by
  show readLE (writeLE p.data 20 4 v) 0 8 = readLE p.data 0 8
  exact readLE_writeLE_disjoint 4 8 p.data 20 0 v (Or.inl (by norm_num))

theorem get_page_id_set_fsp (p : Page) (v : Nat) :
    (p.set_free_space_pointer v).get_page_id = p.get_page_id := by
  show readLE (writeLE p.data 20 4 v) 8 8 = readLE p.data 8 8
  exact readLE_writeLE_disjoint 4 8 p.data 20 8 v (Or.inl (by norm_num))

theorem get_checksum_set_fsp (p : Page) (v : Nat) :
    (p.set_free_space_pointer v).get_checksum = p.get_checksum := by
  show readLE (writeLE p.data 20 4 v) 16 4 = readLE p.data 16 4
  exact readLE_writeLE_disjoint 4 4 p.data 20 16 v (Or.inl (by norm_num))

theorem get_item_count_set_fsp (p : Page) (v : Nat) :
    (p.set_free_space_pointer v).get_item_count = p.get_item_count := by
  show readLE (writeLE p.data 20 4 v) 24 4 = readLE p.data 24 4
  exact readLE_writeLE_disjoint 4 4 p.data 20 24 v (Or.inr (by norm_num))

theorem get_page_type_set_fsp (p : Page) (v : Nat) :
    (p.set_free_space_pointer v).get_page_type = p.get_page_type := by
  show readLE (writeLE p.data 20 4 v) 28 2 = readLE p.data 28 2
  exact readLE_writeLE_disjoint 4 2 p.data 20 28 v (Or.inr (by norm_num))

/-! ## Claim C6 -/

/-- C6 (counterexample): the claim fails as stated. On a freshly
constructed page (whose header invariant holds), `set_free_space_pointer 0`
— a public setter with an unrestricted argument — drives the free-space
pointer below `HEADER_SIZE`; likewise `write_at 20 [0,0,0,0]` is an
in-bounds write (it returns true) that overwrites the header's free-space
pointer field, also breaking the invariant. -/
theorem C6_counterexample :
    headerInv (Page.new 7 PageType.NodeStore) ∧
    ¬ headerInv ((Page.new 7 PageType.NodeStore).set_free_space_pointer 0) ∧
    ((Page.new 7 PageType.NodeStore).write_at 20 [0, 0, 0, 0]).1 = true ∧
    ¬ headerInv (((Page.new 7 PageType.NodeStore).write_at 20 [0, 0, 0, 0]).2) :=
  ⟨by decide, by decide, by decide, by decide⟩

/-- C6 (amended): every public Page operation among `new`,
`from_bytes` (on a buffer whose embedded header satisfies the invariant),
`allocate`, `reset`, `pin`, `unpin`, `set_lsn`, `set_page_id`,
`set_pin_count` and `set_dirty` preserves
`HEADER_SIZE ≤ free_space_pointer ≤ PAGE_SIZE` (`read_at` mutates
nothing); `set_free_space_pointer` preserves it only when its argument
lies in `[HEADER_SIZE, PAGE_SIZE]`, and `write_at` preserves it when the
write offset is at least `HEADER_SIZE` (a write overlapping the header can
clobber the pointer field). -/
theorem C6_header_invariant_preserved :
    (∀ id t, headerInv (Page.new id t)) ∧
    (∀ d, HEADER_SIZE ≤ readLE d 20 4 → readLE d 20 4 ≤ PAGE_SIZE →
      headerInv (Page.from_bytes d)) ∧
    (∀ (p : Page) size, headerInv p → headerInv (p.allocate size).2) ∧
    (∀ p : Page, headerInv p.reset) ∧
    (∀ p : Page, headerInv p → headerInv p.pin) ∧
    (∀ (p q : Page) b, headerInv p → p.unpin = some (q, b) → headerInv q) ∧
    (∀ (p : Page) v, headerInv p → headerInv (p.set_lsn v)) ∧
    (∀ (p : Page) v, headerInv p → headerInv (p.set_page_id v)) ∧
    (∀ (p : Page) c, headerInv p → headerInv (p.set_pin_count c)) ∧
    (∀ (p : Page) b, headerInv p → headerInv (p.set_dirty b)) ∧
    (∀ (p : Page) v, HEADER_SIZE ≤ v → v ≤ PAGE_SIZE →
      headerInv (p.set_free_space_pointer v)) ∧
    (∀ (p : Page) offset bytes, HEADER_SIZE ≤ offset → headerInv p →
      headerInv (p.write_at offset bytes).2) := by
  refine ⟨?_, ?_, ?_, ?_, ?_, ?_, ?_, ?_, ?_, ?_, ?_, ?_⟩
  · intro id t
    unfold headerInv
    rw [get_fsp_new]
    exact ⟨Nat.le_refl _, by norm_num [HEADER_SIZE, PAGE_SIZE]⟩
  · intro d h1 h2
    exact ⟨h1, h2⟩
  · intro p size hp
    by_cases hroom : size ≤ p.get_free_space
    · have hfree : p.get_free_space = PAGE_SIZE - p.get_free_space_pointer := rfl
      have h8192 : PAGE_SIZE = 8192 := rfl
      rcases hp with ⟨hlo, hhi⟩
      have hs : size ≤ PAGE_SIZE := by omega
      constructor
      · rw [allocate_success_fsp p size hroom hhi hs]
        exact Nat.le_trans hlo (Nat.le_add_right _ _)
      · rw [allocate_success_fsp p size hroom hhi hs]
        omega
    · rw [allocate_fail p size (by omega)]
      exact hp
  · intro p
    unfold headerInv
    rw [get_fsp_reset]
    exact ⟨Nat.le_refl _, by norm_num [HEADER_SIZE, PAGE_SIZE]⟩
  · intro p hp
    exact hp
  · intro p q b hp hq
    unfold Page.unpin at hq
    split at hq
    · injection hq with hq
      injection hq with hq1 hq2
      subst hq1
      exact hp
    · exact absurd hq (by simp)
  · intro p v hp
    unfold headerInv
    rw [get_fsp_set_lsn]
    exact hp
  · intro p v hp
    unfold headerInv
    rw [get_fsp_set_page_id]
    exact hp
  · intro p c hp
    exact hp
  · intro p b hp
    exact hp
  · intro p v h1 h2
    unfold headerInv
    rw [get_fsp_set_fsp]
    rw [Nat.mod_eq_of_lt (Nat.lt_of_le_of_lt h2 (by norm_num [PAGE_SIZE]))]
    exact ⟨h1, h2⟩
  · intro p offset bytes hoff hp
    by_cases hc : PAGE_SIZE < offset + bytes.length
    · simp only [Page.write_at, if_pos hc]
      exact hp
    · have hfsp : (p.write_at offset bytes).2.get_free_space_pointer =
          p.get_free_space_pointer := by
        show readLE (p.write_at offset bytes).2.data 20 4 = readLE p.data 20 4
        simp only [Page.write_at, if_neg hc]
        refine readLE_congrOn 4 _ p.data 20 (fun j hj1 hj2 => ?_)
        have h32 : (32 : Nat) ≤ offset := hoff
        rw [if_neg (by omega)]
      unfold headerInv
      rw [hfsp]
      exact hp

/-- C6 (witness): the amended preservation theorem applied at concrete
inputs, discharging its hypotheses. -/
theorem C6_witness :
    headerInv (Page.new 3 PageType.Relationship) ∧
    headerInv ((Page.new 3 PageType.Relationship).set_free_space_pointer 100) ∧
    headerInv (((Page.new 3 PageType.Relationship).allocate 10).2) :=
  ⟨C6_header_invariant_preserved.1 3 PageType.Relationship,
   C6_header_invariant_preserved.2.2.2.2.2.2.2.2.2.2.1
     (Page.new 3 PageType.Relationship) 100 (by decide) (by decide),
   C6_header_invariant_preserved.2.2.1 (Page.new 3 PageType.Relationship) 10
     (C6_header_invariant_preserved.1 3 PageType.Relationship)⟩

/-! ## Claim C7 -/

/-- C7: on a freshly constructed page, `allocate S` with
`S ≤ PAGE_SIZE - HEADER_SIZE` returns offset `HEADER_SIZE` and advances the
free-space pointer by `S`; a subsequent `allocate T` with `T` fitting in the
remaining space returns offset `HEADER_SIZE + S`; allocating more than the
remaining space returns an absent result and leaves the page (hence the
free-space pointer) unchanged. -/
theorem C7_allocate_fresh (id : Nat) (t : PageType) (S T : Nat)
    (hS : S ≤ PAGE_SIZE - HEADER_SIZE)
    (hT : T ≤ PAGE_SIZE - HEADER_SIZE - S) :
    ((Page.new id t).allocate S).1 = some HEADER_SIZE ∧
    ((Page.new id t).allocate S).2.get_free_space_pointer = HEADER_SIZE + S ∧
    (((Page.new id t).allocate S).2.allocate T).1 = some (HEADER_SIZE + S) ∧
    ∀ U, PAGE_SIZE - HEADER_SIZE - S < U →
      ((Page.new id t).allocate S).2.allocate U =
        (none, ((Page.new id t).allocate S).2) := by
  have hnum : PAGE_SIZE = 8192 ∧ HEADER_SIZE = 32 := ⟨rfl, rfl⟩
  have hfree : (Page.new id t).get_free_space =
      PAGE_SIZE - HEADER_SIZE := by
    show PAGE_SIZE - (Page.new id t).get_free_space_pointer = _
    rw [get_fsp_new]
  have hroom : S ≤ (Page.new id t).get_free_space := by rw [hfree]; exact hS
  have hfsp1 : ((Page.new id t).allocate S).2.get_free_space_pointer =
      HEADER_SIZE + S := by
    rw [allocate_success_fsp _ S hroom (by rw [get_fsp_new]; omega) (by omega),
      get_fsp_new]
  have hfree1 : ((Page.new id t).allocate S).2.get_free_space =
      PAGE_SIZE - HEADER_SIZE - S := by
    show PAGE_SIZE - ((Page.new id t).allocate S).2.get_free_space_pointer = _
    rw [hfsp1]
    omega
  refine ⟨?_, hfsp1, ?_, ?_⟩
  · rw [allocate_success _ S hroom, get_fsp_new]
  · rw [allocate_success _ T (by rw [hfree1]; exact hT), hfsp1]
  · intro U hU
    exact allocate_fail _ U (by rw [hfree1]; omega)

/-- C7 (witness): the fresh-page allocation chain at concrete inputs. -/
theorem C7_witness :
    ((Page.new 3 PageType.PropertyStore).allocate 100).1 = some HEADER_SIZE ∧
    ((Page.new 3 PageType.PropertyStore).allocate 100).2.get_free_space_pointer
      = HEADER_SIZE + 100 ∧
    (((Page.new 3 PageType.PropertyStore).allocate 100).2.allocate 50).1 =
      some (HEADER_SIZE + 100) ∧
    ((Page.new 3 PageType.PropertyStore).allocate 100).2.allocate 8061 =
      (none, ((Page.new 3 PageType.PropertyStore).allocate 100).2) := by
  have h := C7_allocate_fresh 3 PageType.PropertyStore 100 50
    (by decide) (by decide)
  exact ⟨h.1, h.2.1, h.2.2.1, h.2.2.2 8061 (by decide)⟩

/-! ## Claim C8 -/

/-- C8: `write_at offset bytes` succeeds (returns true, copies the bytes
into the buffer at `offset`, sets the dirty flag) if and only if
`offset + bytes.length ≤ PAGE_SIZE`; on failure it returns false and
leaves the page — buffer, dirty flag and all runtime metadata — entirely
unchanged, and on success it changes no buffer byte outside the written
range. -/
theorem C8_write_at_bounds (p : Page) (offset : Nat) (bytes : List Nat) :
    ((p.write_at offset bytes).1 = true ↔
      offset + bytes.length ≤ PAGE_SIZE) ∧
    (PAGE_SIZE < offset + bytes.length →
      p.write_at offset bytes = (false, p)) ∧
    (offset + bytes.length ≤ PAGE_SIZE →
      (p.write_at offset bytes).2.is_dirty = true ∧
      (∀ k, k < bytes.length →
        (p.write_at offset bytes).2.data (offset + k) =
          bytes.getD k 0 % 256) ∧
      (∀ j, j < offset ∨ offset + bytes.length ≤ j →
        (p.write_at offset bytes).2.data j = p.data j) ∧
      (p.write_at offset bytes).2.page_id = p.page_id ∧
      (p.write_at offset bytes).2.pin_count = p.pin_count ∧
      (p.write_at offset bytes).2.ref_bit = p.ref_bit) := by
  by_cases hc : PAGE_SIZE < offset + bytes.length
  · refine ⟨?_, fun _ => ?_, fun h => absurd h (by omega)⟩
    · simp only [Page.write_at, if_pos hc]
      constructor
      · intro h
        exact absurd h (by simp)
      · intro h
        omega
    · simp only [Page.write_at, if_pos hc]
  · refine ⟨?_, fun h => absurd h hc, fun h => ?_⟩
    · simp only [Page.write_at, if_neg hc]
      constructor
      · intro _
        omega
      · intro _
        trivial
    · refine ⟨?_, ?_, ?_, ?_, ?_, ?_⟩
      · simp only [Page.write_at, if_neg hc]
      · intro k hk
        simp only [Page.write_at, if_neg hc]
        rw [if_pos ⟨Nat.le_add_right _ _, by omega⟩, Nat.add_sub_cancel_left]
      · intro j hj
        simp only [Page.write_at, if_neg hc]
        rw [if_neg (by omega)]
      · simp only [Page.write_at, if_neg hc]
      · simp only [Page.write_at, if_neg hc]
      · simp only [Page.write_at, if_neg hc]

/-- C8 (witness): a concrete in-bounds write and a concrete out-of-bounds
write, via the theorem. -/
theorem C8_witness :
    ((Page.new 1 PageType.NodeStore).write_at 100 [9, 8, 7]).2.data 101 =
      8 % 256 ∧
    (Page.new 1 PageType.NodeStore).write_at 8190 [1, 2, 3] =
      (false, Page.new 1 PageType.NodeStore) := by
  constructor
  · exact ((C8_write_at_bounds (Page.new 1 PageType.NodeStore) 100
      [9, 8, 7]).2.2 (by decide)).2.1 1 (by decide)
  · exact (C8_write_at_bounds (Page.new 1 PageType.NodeStore) 8190
      [1, 2, 3]).2.1 (by decide)

/-! ## Claim C9 -/

theorem from_bytes_data (f : Nat → Nat) : (Page.from_bytes f).data = f := rfl

/-- C9: constructing a page via `new(id, t)`, taking its raw buffer, and
reconstructing via `from_bytes` yields identical header field values (lsn,
page identifier, checksum, free-space pointer, item count, page type) and
identical Data-region bytes. -/
theorem C9_roundtrip (id : Nat) (t : PageType) :
    (Page.from_bytes ((Page.new id t).get_data)).get_lsn =
      (Page.new id t).get_lsn ∧
    (Page.from_bytes ((Page.new id t).get_data)).get_page_id =
      (Page.new id t).get_page_id ∧
    (Page.from_bytes ((Page.new id t).get_data)).get_checksum =
      (Page.new id t).get_checksum ∧
    (Page.from_bytes ((Page.new id t).get_data)).get_free_space_pointer =
      (Page.new id t).get_free_space_pointer ∧
    (Page.from_bytes ((Page.new id t).get_data)).get_item_count =
      (Page.new id t).get_item_count ∧
    (Page.from_bytes ((Page.new id t).get_data)).get_page_type =
      (Page.new id t).get_page_type ∧
    ∀ i, HEADER_SIZE ≤ i → i < PAGE_SIZE →
      (Page.from_bytes ((Page.new id t).get_data)).get_data i =
        (Page.new id t).get_data i := by
  refine ⟨?_, ?_, ?_, ?_, ?_, ?_, fun i h1 h2 => ?_⟩ <;>
    simp only [Page.get_lsn, Page.get_page_id, Page.get_checksum,
      Page.get_free_space_pointer, Page.get_item_count, Page.get_page_type,
      Page.get_data, from_bytes_data]

/-- C9 (witness): the round-trip theorem at a concrete page and a concrete
Data-region index. -/
theorem C9_witness :
    (Page.from_bytes ((Page.new 5 PageType.PropertyStore).get_data)).get_page_id
      = (Page.new 5 PageType.PropertyStore).get_page_id ∧
    (Page.from_bytes ((Page.new 5 PageType.PropertyStore).get_data)).get_data
      100 = (Page.new 5 PageType.PropertyStore).get_data 100 :=
  ⟨(C9_roundtrip 5 PageType.PropertyStore).2.1,
   (C9_roundtrip 5 PageType.PropertyStore).2.2.2.2.2.2 100
     (by decide) (by decide)⟩

/-! ## Claim C10 -/

/-- C10: a successful `allocate` changes only the free-space-pointer header
field (buffer bytes 20..23): the dirty flag, pin count, reference bit,
resident page identifier, every other header field and every buffer byte
outside those four is unchanged — in particular allocate never sets the
dirty flag, so a page modified only by allocate is not flagged for
flushing at eviction (the miss path flushes exactly the dirty frames). -/
theorem C10_allocate_frame_effect (p : Page) (size off : Nat)
    (h : (p.allocate size).1 = some off) :
    (p.allocate size).2.is_dirty = p.is_dirty ∧
    (p.allocate size).2.pin_count = p.pin_count ∧
    (p.allocate size).2.ref_bit = p.ref_bit ∧
    (p.allocate size).2.page_id = p.page_id ∧
    (p.allocate size).2.get_lsn = p.get_lsn ∧
    (p.allocate size).2.get_page_id = p.get_page_id ∧
    (p.allocate size).2.get_checksum = p.get_checksum ∧
    (p.allocate size).2.get_item_count = p.get_item_count ∧
    (p.allocate size).2.get_page_type = p.get_page_type ∧
    ∀ j, j < 20 ∨ 24 ≤ j → (p.allocate size).2.data j = p.data j := by
  by_cases hroom : size ≤ p.get_free_space
  · rw [allocate_success p size hroom]
    refine ⟨rfl, rfl, rfl, rfl, get_lsn_set_fsp p _, get_page_id_set_fsp p _,
      get_checksum_set_fsp p _, get_item_count_set_fsp p _,
      get_page_type_set_fsp p _, fun j hj => ?_⟩
    exact writeLE_outside 4 p.data 20 _ j (by omega)
  · rw [allocate_fail p size (by omega)] at h
    simp at h

/-- C10 (witness): a successful concrete allocation, with the dirty flag
and a header byte outside the pointer field untouched. -/
theorem C10_witness :
    ((Page.new 2 PageType.NodeStore).allocate 100).1 = some 32 ∧
    ((Page.new 2 PageType.NodeStore).allocate 100).2.is_dirty =
      (Page.new 2 PageType.NodeStore).is_dirty ∧
    ((Page.new 2 PageType.NodeStore).allocate 100).2.data 30 =
      (Page.new 2 PageType.NodeStore).data 30 :=
  ⟨by decide,
   (C10_allocate_frame_effect (Page.new 2 PageType.NodeStore) 100 32
     (by decide)).1,
   (C10_allocate_frame_effect (Page.new 2 PageType.NodeStore) 100 32
     (by decide)).2.2.2.2.2.2.2.2.2 30 (by omega)⟩

/-! ## ClockReplacer lemmas -/

theorem victimAux_pin_eq (fuel : Nat) (frames : List Page)
    (hand start size j : Nat) :
    (((victimAux fuel frames hand start size).2.1).getD j
        Page.default).pin_count =
      (frames.getD j Page.default).pin_count := by
  induction fuel generalizing frames hand with
  | zero => rfl
  | succ fuel ih =>
    simp only [victimAux]
    by_cases hp : (frames.getD hand Page.default).pin_count > 0
    · rw [if_pos hp]
      by_cases hh : (hand + 1) % size = start
      · rw [if_pos hh]
      · rw [if_neg hh]
        exact ih frames ((hand + 1) % size)
    · rw [if_neg hp]
      by_cases hr : (frames.getD hand Page.default).ref_bit = true
      · rw [if_pos hr]
        rw [ih]
        rw [list_getD_set]
        by_cases hc : j = hand ∧ hand < frames.length
        · rw [if_pos hc]
          rcases hc with ⟨rfl, _⟩
          rfl
        · rw [if_neg hc]
      · rw [if_neg hr]

theorem victimAux_length (fuel : Nat) (frames : List Page)
    (hand start size : Nat) :
    ((victimAux fuel frames hand start size).2.1).length = frames.length := by
  induction fuel generalizing frames hand with
  | zero => rfl
  | succ fuel ih =>
    simp only [victimAux]
    by_cases hp : (frames.getD hand Page.default).pin_count > 0
    · rw [if_pos hp]
      by_cases hh : (hand + 1) % size = start
      · rw [if_pos hh]
      · rw [if_neg hh]
        exact ih frames ((hand + 1) % size)
    · rw [if_neg hp]
      by_cases hr : (frames.getD hand Page.default).ref_bit = true
      · rw [if_pos hr]
        rw [ih, List.length_set]
      · rw [if_neg hr]

theorem victimAux_some (fuel : Nat) (frames frames2 : List Page)
    (hand start size f hand2 : Nat)
    (h : victimAux fuel frames hand start size = (some f, frames2, hand2)) :
    (frames2.getD f Page.default).ref_bit = false ∧
    (frames2.getD f Page.default).pin_count ≤ 0 := by
  induction fuel generalizing frames hand with
  | zero => simp [victimAux] at h
  | succ fuel ih =>
    simp only [victimAux] at h
    by_cases hp : (frames.getD hand Page.default).pin_count > 0
    · rw [if_pos hp] at h
      by_cases hh : (hand + 1) % size = start
      · rw [if_pos hh] at h
        simp at h
      · rw [if_neg hh] at h
        exact ih frames ((hand + 1) % size) h
    · rw [if_neg hp] at h
      by_cases hr : (frames.getD hand Page.default).ref_bit = true
      · rw [if_pos hr] at h
        exact ih _ ((hand + 1) % size) h
      · rw [if_neg hr] at h
        injection h with h1 h2
        injection h2 with h2 h3
        injection h1 with h1
        subst h1
        subst h2
        constructor
        · simpa using hr
        · omega

theorem victimAux_pin_le (fuel : Nat) (frames : List Page)
    (hand start size f : Nat)
    (h : (victimAux fuel frames hand start size).1 = some f) :
    (frames.getD f Page.default).pin_count ≤ 0 := by
  have heta : victimAux fuel frames hand start size =
      ((victimAux fuel frames hand start size).1,
       (victimAux fuel frames hand start size).2.1,
       (victimAux fuel frames hand start size).2.2) := rfl
  rw [h] at heta
  have h2 := (victimAux_some fuel frames _ hand start size f _ heta).2
  rw [victimAux_pin_eq] at h2
  exact h2

theorem clock_victim_ref_false (r : ClockReplacer) (frames : List Page)
    (f : FrameId) (h : (r.victim frames).1 = some f) :
    (((r.victim frames).2.1).getD f Page.default).ref_bit = false := by
  have h1 : (victimAux (2 * r.size + 2) frames r.hand r.hand r.size).1 =
      some f := h
  have heta : victimAux (2 * r.size + 2) frames r.hand r.hand r.size =
      ((victimAux (2 * r.size + 2) frames r.hand r.hand r.size).1,
       (victimAux (2 * r.size + 2) frames r.hand r.hand r.size).2.1,
       (victimAux (2 * r.size + 2) frames r.hand r.hand r.size).2.2) := rfl
  rw [h1] at heta
  exact (victimAux_some _ frames _ r.hand r.hand r.size f _ heta).1

/-! ## BufferPoolManager lemmas -/

theorem find_free_frame_frames_pin (s : BufferPoolState) (j : Nat) :
    (((find_free_frame s).2).frames.getD j Page.default).pin_count =
      ((s.frames.getD j Page.default)).pin_count := by
  unfold find_free_frame
  cases s.free_list with
  | cons fid rest => rfl
  | nil =>
    exact victimAux_pin_eq (2 * s.replacer.size + 2) s.frames
      s.replacer.hand s.replacer.hand s.replacer.size j

theorem find_free_frame_length (s : BufferPoolState) :
    ((find_free_frame s).2).frames.length = s.frames.length := by
  unfold find_free_frame
  cases s.free_list with
  | cons fid rest => rfl
  | nil =>
    exact victimAux_length (2 * s.replacer.size + 2) s.frames
      s.replacer.hand s.replacer.hand s.replacer.size

theorem fetch_page_pins (s : BufferPoolState) (pid : PageId)
    (hs : pinsNonneg s) : pinsNonneg (fetch_page s pid).1 := by
  cases hm : mapLookup s.page_mapping pid with
  | some fid =>
    intro f
    simp only [fetch_page, hm]
    rw [list_getD_set]
    by_cases hc : f = fid ∧ fid < s.frames.length
    · rw [if_pos hc]
      have := hs fid
      show (0 : Int) ≤ (s.frames.getD fid Page.default).pin_count + 1
      omega
    · rw [if_neg hc]
      exact hs f
  | none =>
    rcases hff : find_free_frame s with ⟨ofid, s1⟩
    have hpin1 : ∀ j, (s1.frames.getD j Page.default).pin_count =
        (s.frames.getD j Page.default).pin_count := by
      intro j
      have h2 := find_free_frame_frames_pin s j
      rw [hff] at h2
      exact h2
    cases ofid with
    | none =>
      intro f
      simp only [fetch_page, hm, hff]
      rw [hpin1 f]
      exact hs f
    | some fid =>
      intro f
      simp only [fetch_page, hm, hff]
      rw [list_getD_set]
      by_cases hc : f = fid ∧ fid < s1.frames.length
      · rw [if_pos hc]
        show (0 : Int) ≤ 1
        decide
      · rw [if_neg hc]
        rw [hpin1 f]
        exact hs f

theorem unpin_page_pins (s : BufferPoolState) (pid : PageId) (d : Bool)
    (hs : pinsNonneg s) : pinsNonneg (unpin_page s pid d) := by
  cases hm : mapLookup s.page_mapping pid with
  | none =>
    intro f
    simp only [unpin_page, hm]
    exact hs f
  | some fid =>
    intro f
    simp only [unpin_page, hm]
    rw [list_getD_set]
    by_cases hc : f = fid ∧ fid < s.frames.length
    · rw [if_pos hc]
      have := hs fid
      by_cases hd : d = true
      · rw [if_pos hd]
        by_cases hp : (s.frames.getD fid Page.default).pin_count > 0
        · rw [if_pos hp]
          show (0 : Int) ≤ (s.frames.getD fid Page.default).pin_count - 1
          omega
        · rw [if_neg hp]
          show (0 : Int) ≤ (s.frames.getD fid Page.default).pin_count
          omega
      · rw [if_neg hd]
        by_cases hp : (s.frames.getD fid Page.default).pin_count > 0
        · rw [if_pos hp]
          show (0 : Int) ≤ (s.frames.getD fid Page.default).pin_count - 1
          omega
        · rw [if_neg hp]
          show (0 : Int) ≤ (s.frames.getD fid Page.default).pin_count
          omega
    · rw [if_neg hc]
      exact hs f

theorem pinsNonneg_new (n : Nat) : pinsNonneg (BufferPoolManager.new n) := by
  intro f
  show 0 ≤ ((List.replicate n Page.default).getD f Page.default).pin_count
  rw [list_getD_replicate]
  decide

theorem runOps_pins (ops : List PoolOp) (s : BufferPoolState)
    (hs : pinsNonneg s) : pinsNonneg (runOps s ops) := by
  induction ops generalizing s with
  | nil => exact hs
  | cons op rest ih =>
    refine ih (runOp s op) ?_
    cases op with
    | fetch pid => exact fetch_page_pins s pid hs
    | unpin pid d => exact unpin_page_pins s pid d hs

/-! ## Claim C4 -/

/-- C4: over every sequence of fetch_page/unpin_page calls from a fresh
pool no pin count ever becomes negative; unpin_page on a mapped page with
pin count 0 leaves it at 0 (floor at zero); unpin_page on an unmapped page
identifier changes no state at all. -/
theorem C4_pin_never_negative :
    (∀ n ops, pinsNonneg (runOps (BufferPoolManager.new n) ops)) ∧
    (∀ (s : BufferPoolState) (pid : PageId) (d : Bool) (fid : FrameId),
      mapLookup s.page_mapping pid = some fid →
      (s.frames.getD fid Page.default).pin_count = 0 →
      ((unpin_page s pid d).frames.getD fid Page.default).pin_count = 0) ∧
    (∀ (s : BufferPoolState) (pid : PageId) (d : Bool),
      mapLookup s.page_mapping pid = none → unpin_page s pid d = s) := by
  refine ⟨?_, ?_, ?_⟩
  · intro n ops
    exact runOps_pins ops _ (pinsNonneg_new n)
  · intro s pid d fid hm hp
    simp only [unpin_page, hm]
    rw [list_getD_set]
    by_cases hc : fid = fid ∧ fid < s.frames.length
    · rw [if_pos hc]
      rw [if_neg (show ¬ (s.frames.getD fid Page.default).pin_count > 0 by
        omega)]
      by_cases hd : d = true
      · rw [if_pos hd]
        exact hp
      · rw [if_neg hd]
        exact hp
    · rw [if_neg hc]
      exact hp
  · intro s pid d hm
    simp only [unpin_page, hm]

/-- C4 (witness): the pin-count properties at concrete runs. -/
theorem C4_witness :
    pinsNonneg (runOps (BufferPoolManager.new 2)
      [.fetch 4, .unpin 4 false, .unpin 4 false]) ∧
    ((unpin_page (runOps (BufferPoolManager.new 1)
        [.fetch 3, .unpin 3 false]) 3 false).frames.getD 0
      Page.default).pin_count = 0 ∧
    unpin_page (BufferPoolManager.new 1) 5 false = BufferPoolManager.new 1 :=
  ⟨C4_pin_never_negative.1 2 [.fetch 4, .unpin 4 false, .unpin 4 false],
   C4_pin_never_negative.2.1 _ 3 false 0 (by decide) (by decide),
   C4_pin_never_negative.2.2 (BufferPoolManager.new 1) 5 false (by decide)⟩

/-! ## Claim C5 -/

/-- C5: `ClockReplacer::victim` never returns a frame whose pin count is
greater than zero; and in the concrete scenario pool_size = 3, all frames
unpinned, reference bits [true, true, false], hand at 0, one victim call
returns frame 2, clears the reference bits of frames 0 and 1, and leaves
the hand at 0. -/
theorem C5_victim_unpinned :
    (∀ (r : ClockReplacer) (frames : List Page) (f : FrameId),
      (r.victim frames).1 = some f →
      (frames.getD f Page.default).pin_count ≤ 0) ∧
    ((ClockReplacer.new 3).victim clockScenarioFrames).1 = some 2 ∧
    (((ClockReplacer.new 3).victim clockScenarioFrames).2.2).hand = 0 ∧
    ((((ClockReplacer.new 3).victim clockScenarioFrames).2.1).getD 0
      Page.default).ref_bit = false ∧
    ((((ClockReplacer.new 3).victim clockScenarioFrames).2.1).getD 1
      Page.default).ref_bit = false := by
  refine ⟨?_, by decide, by decide, by decide, by decide⟩
  intro r frames f h
  exact victimAux_pin_le (2 * r.size + 2) frames r.hand r.hand r.size f h

/-- C5 (witness): the never-pinned-victim property applied at the concrete
clock scenario. -/
theorem C5_witness :
    ((ClockReplacer.new 3).victim clockScenarioFrames).1 = some 2 ∧
    (clockScenarioFrames.getD 2 Page.default).pin_count ≤ 0 :=
  ⟨by decide,
   C5_victim_unpinned.1 (ClockReplacer.new 3) clockScenarioFrames 2
     (by decide)⟩

/-! ## Claim C1 -/

/-- C1 (code bug, evaluated at the failing input): from a fresh pool of two
frames, run fetch 0 then fetch 1. The free-list frame selected for page 1
is a never-used default page whose bound page identifier is `some 0`, so
the miss path removes page 0's live mapping entry. Afterwards frame 0
still holds page 0 with pin count 1 (a resident, pinned page), yet the
mapping has no entry for page 0 — the mapping is not bijective over the
resident set, contradicting the claimed invariant. -/
theorem C1_mapping_bug_eval :
    ((runOps (BufferPoolManager.new 2) [.fetch 0, .fetch 1]).frames.getD 0
      Page.default).page_id = some 0 ∧
    ((runOps (BufferPoolManager.new 2) [.fetch 0, .fetch 1]).frames.getD 0
      Page.default).pin_count = 1 ∧
    mapLookup (runOps (BufferPoolManager.new 2)
      [.fetch 0, .fetch 1]).page_mapping 0 = none ∧
    mapLookup (runOps (BufferPoolManager.new 2)
      [.fetch 0, .fetch 1]).page_mapping 1 = some 1 :=
  ⟨by decide, by decide, by decide, by decide⟩

/-! ## Claim C3 -/

/-- C3 (code bug, evaluated at the failing input): pool of two frames;
fetch 5, fetch 6, unpin 5. Now the free list is empty, frame 0 is unpinned
(reference bit true) and frame 1 is pinned. A further fetch of an unmapped
page returns an absent result even though an unpinned frame exists: the
clock sweep clears frame 0's reference bit, advances past pinned frame 1,
and the wrap-around check fires before frame 0 is revisited. The same
failure at the replacer level: victim on [unpinned ref-true, pinned] with
hand 0 reports no victim although frame 0 is unpinned. -/
theorem C3_saturation_bug_eval :
    (runOps (BufferPoolManager.new 2)
      [.fetch 5, .fetch 6, .unpin 5 false]).free_list = [] ∧
    ((runOps (BufferPoolManager.new 2)
      [.fetch 5, .fetch 6, .unpin 5 false]).frames.getD 0
      Page.default).pin_count = 0 ∧
    (fetch_page (runOps (BufferPoolManager.new 2)
      [.fetch 5, .fetch 6, .unpin 5 false]) 7).2 = none ∧
    ((ClockReplacer.new 2).victim
      [Page.default, { Page.default with pin_count := 1 }]).1 = none ∧
    (Page.default).pin_count = 0 :=
  ⟨by decide, by decide, by decide, by decide, by decide⟩

/-! ## Claim C2 -/

/-- C2 (counterexample): the claim fails as stated. Pool of one frame;
fetch 1, unpin 1, then fetch 2. The fetch of page 2 is a miss served by an
eviction victim, and after the load the frame's reference bit is false —
the miss path never writes the reference bit, and the clock victim was
selected precisely because its reference bit was cleared. -/
theorem C2_counterexample :
    (fetch_page (runOps (BufferPoolManager.new 1)
      [.fetch 1, .unpin 1 false]) 2).2 = some 0 ∧
    ((fetch_page (runOps (BufferPoolManager.new 1)
      [.fetch 1, .unpin 1 false]) 2).1.frames.getD 0
      Page.default).ref_bit = false :=
  ⟨by decide, by decide⟩

/-- C2 (amended): after a fetch_page miss that loads page_id into frame
fid, the frame's metadata is: bound page identifier = page_id, pin count
= 1, dirty = false; the reference bit is not written by the miss path — it
keeps exactly the value it has after frame selection (true for a
never-used free-list frame, which carries its construction-time value),
and whenever the frame was selected as a ClockReplacer victim that value
is false. -/
theorem C2_miss_metadata :
    (∀ (s : BufferPoolState) (pid : PageId) (fid : FrameId),
      mapLookup s.page_mapping pid = none →
      (fetch_page s pid).2 = some fid →
      fid < s.frames.length →
      ((fetch_page s pid).1.frames.getD fid Page.default).page_id =
        some pid ∧
      ((fetch_page s pid).1.frames.getD fid Page.default).pin_count = 1 ∧
      ((fetch_page s pid).1.frames.getD fid Page.default).is_dirty =
        false ∧
      ((fetch_page s pid).1.frames.getD fid Page.default).ref_bit =
        (((find_free_frame s).2).frames.getD fid Page.default).ref_bit) ∧
    (∀ (r : ClockReplacer) (frames : List Page) (f : FrameId),
      (r.victim frames).1 = some f →
      (((r.victim frames).2.1).getD f Page.default).ref_bit = false) := by
  constructor
  · intro s pid fid hm hsome hlen
    rcases hff : find_free_frame s with ⟨ofid, s1⟩
    have hlen1 : s1.frames.length = s.frames.length := by
      have h2 := find_free_frame_length s
      rw [hff] at h2
      exact h2
    cases ofid with
    | none =>
      exfalso
      simp only [fetch_page, hm, hff] at hsome
      exact Option.noConfusion hsome
    | some fid2 =>
      simp only [fetch_page, hm, hff] at hsome
      have hfid : fid2 = fid := by simpa using hsome
      simp only [fetch_page, hm, hff]
      rw [list_getD_set]
      have hcond : fid = fid2 ∧ fid2 < s1.frames.length :=
        ⟨hfid.symm, by rw [hlen1, hfid]; exact hlen⟩
      rw [if_pos hcond]
      refine ⟨rfl, rfl, rfl, ?_⟩
      rw [← hfid]
  · intro r frames f h
    exact clock_victim_ref_false r frames f h

/-- C2 (witness): the amended miss-path theorem applied at a concrete
eviction miss, discharging its hypotheses. -/
theorem C2_witness :
    mapLookup (runOps (BufferPoolManager.new 1)
      [.fetch 1, .unpin 1 false]).page_mapping 2 = none ∧
    ((fetch_page (runOps (BufferPoolManager.new 1)
      [.fetch 1, .unpin 1 false]) 2).1.frames.getD 0
      Page.default).pin_count = 1 :=
  ⟨by decide,
   (C2_miss_metadata.1 (runOps (BufferPoolManager.new 1)
      [.fetch 1, .unpin 1 false]) 2 0 (by decide) (by decide)
      (by decide)).2.1⟩
